import Mathlib

/-!
Verification of the request-construction logic of the agile sprint client
(`src/api/sprint.js`, constructor `AgileSprintClient`).

The JavaScript operations are shallowly embedded: JS values become the
inductive `JVal`, JS objects become association lists of string keys, property
read / `delete` / property assignment become `getProp` / `delProp` / `setProp`,
and string coercion in URL concatenation becomes `jsToString`.  Mutation of the
caller's options object is made explicit: every operation returns, next to the
request descriptor it hands to the transport, the post-call state of the
caller's options object.

The three collaborators that live in the repository but outside `src/`
(`JiraClient.parseOptions`, `JiraClient.buildAgileURL`,
`JiraClient.makeRequest`) are modelled from the specification; each carries a
doc comment saying so.
-/

namespace JiraConnector

/-- A JavaScript value, as far as the sprint client manipulates them:
`undefined`, `null`, booleans, (integral) numbers, strings, arrays and plain
objects (ordered string-keyed field lists). -/
inductive JVal where
  | undef
  | null
  | bool (b : Bool)
  | num (n : Int)
  | str (s : String)
  | arr (elems : List JVal)
  | obj (fields : List (String × JVal))

/-- A JavaScript object: an ordered list of string-keyed fields. -/
abbrev JObj := List (String × JVal)

/-- Property read `o.k`: the value at the first occurrence of key `k`,
`undefined` when the key is absent. -/
def getProp : JObj → String → JVal
  | [], _ => .undef
  | (a, v) :: t, k => if a == k then v else getProp t k

/-- Property deletion `delete o.k`: removes the key from the object. -/
def delProp : JObj → String → JObj
  | [], _ => []
  | (a, v) :: t, k => if a == k then delProp t k else (a, v) :: delProp t k

/-- Whether the object has an own property named `k`. -/
def hasProp (o : JObj) (k : String) : Bool :=
  o.any (fun p => p.1 == k)

/-- Property assignment `o.k = w` to an existing key: replaces the value at
every occurrence of `k`, leaving the key order unchanged. -/
def setProp : JObj → String → JVal → JObj
  | [], _, _ => []
  | (a, v) :: t, k, w =>
      if a == k then (a, w) :: setProp t k w else (a, v) :: setProp t k w

/-- JavaScript string coercion `String(v)`, as used when a value is
concatenated into a URL: `undefined` prints as the literal text
"undefined". -/
def jsToString : JVal → String
  | .undef => "undefined"
  | .null => "null"
  | .bool true => "true"
  | .bool false => "false"
  | .num n => toString n
  | .str s => s
  | .arr elems => jsArrToString elems
  | .obj _ => "[object Object]"
where
  /-- `Array.prototype.toString`: elements joined by commas, with
  `undefined` and `null` elements printing as empty. -/
  jsArrToString : List JVal → String
  | [] => ""
  | [x] => jsElemToString x
  | x :: xs => jsElemToString x ++ "," ++ jsArrToString xs
  /-- One array element inside a join. -/
  jsElemToString : JVal → String
  | .undef => ""
  | .null => ""
  | .bool b => jsToString (.bool b)
  | .num n => jsToString (.num n)
  | .str s => s
  | .arr elems => jsArrToString elems
  | .obj fields => jsToString (.obj fields)

/-- The request descriptor the client hands to the transport: the `options`
object literal built by each operation.  `qs` and `body` are `Option`s because
the read/delete operations build no `body` key and the write operations build
no `qs` key. -/
structure Descriptor where
  uri : String
  method : String
  followAllRedirects : Bool
  json : Bool
  suppliedOptions : JObj
  qs : Option JObj := none
  body : Option JVal := none

/-- Modelled from the spec: the URL Resolver contract
(`JiraClient.buildAgileURL`, not under `src/`) — given a path relative to the
agile resource namespace it returns the absolute endpoint URL, deterministic
for a fixed base configuration `base` and performing no I/O. -/
def buildAgileURL (base rel : String) : String :=
  base ++ rel

/-- Result of splitting caller options: the payload that becomes the body and
the original options retained for downstream introspection. -/
structure ParseResult where
  body : JVal
  suppliedOptions : JObj

/-- Modelled from the spec: the shared option parser
(`JiraClient.parseOptions`, not under `src/`).  Per the spec's field-routing
table and scenarios, the payload object that becomes the body is the options'
`data` field, and the original options are retained as `suppliedOptions`.  Its
second argument only names the resource and does not affect the split. -/
def parseOptions (opts : JObj) (_key : String) : ParseResult :=
  { body := getProp opts "data", suppliedOptions := opts }

/-- `createSprint`: POST `/sprint`, whole parsed payload as the body.  Returns
the descriptor together with the post-call state of the caller's options
object (unchanged here). -/
def createSprint (base : String) (opts : JObj) : Descriptor × JObj :=
  let result := parseOptions opts ""
  ({ uri := buildAgileURL base "/sprint",
     method := "POST",
     followAllRedirects := true,
     suppliedOptions := result.suppliedOptions,
     json := true,
     body := some result.body }, opts)

/-- `getSprint`: GET `/sprint/{id}` with query keys `filter`, `startAt`,
`maxResults` always present.  The caller's options are not mutated. -/
def getSprint (base : String) (opts : JObj) : Descriptor × JObj :=
  ({ uri := buildAgileURL base ("/sprint/" ++ jsToString (getProp opts "sprintId")),
     method := "GET",
     json := true,
     followAllRedirects := true,
     suppliedOptions := opts,
     qs := some [("filter", getProp opts "filter"),
                 ("startAt", getProp opts "startAt"),
                 ("maxResults", getProp opts "maxResults")] }, opts)

/-- Shared shape of `updateSprint`, `partiallyUpdateSprint` and `swapSprint`:
parse the options, read `sprintId` from the parsed body, `delete` it from that
body, and build the descriptor.  Because the parsed body aliases the caller's
`data` field, the deletion also shows in `suppliedOptions` and in the
post-call options.  `none` models the `TypeError` JavaScript raises when the
payload is `undefined` or `null`; a primitive payload goes through with an
`undefined` identifier and no deletion, as in JavaScript. -/
def updateLikeSprint (base : String) (opts : JObj) (key pathSuffix method : String) :
    Option (Descriptor × JObj) :=
  let result := parseOptions opts key
  match result.body with
  | .undef => none
  | .null => none
  | .obj payload =>
      let sprintId := getProp payload "sprintId"
      let body := delProp payload "sprintId"
      let supplied := setProp result.suppliedOptions "data" (.obj body)
      some ({ uri := buildAgileURL base ("/sprint/" ++ jsToString sprintId ++ pathSuffix),
              method := method,
              followAllRedirects := true,
              json := true,
              suppliedOptions := supplied,
              body := some (.obj body) }, supplied)
  | prim =>
      some ({ uri := buildAgileURL base ("/sprint/undefined" ++ pathSuffix),
              method := method,
              followAllRedirects := true,
              json := true,
              suppliedOptions := opts,
              body := some prim }, opts)

/-- `updateSprint`: PUT `/sprint/{id}`, identifier extracted from the parsed
payload and deleted from it before the payload becomes the body. -/
def updateSprint (base : String) (opts : JObj) : Option (Descriptor × JObj) :=
  updateLikeSprint base opts "sprint" "" "PUT"

/-- `partiallyUpdateSprint`: POST `/sprint/{id}`, identifier extracted from
the parsed payload and deleted from it before the payload becomes the body. -/
def partiallyUpdateSprint (base : String) (opts : JObj) : Option (Descriptor × JObj) :=
  updateLikeSprint base opts "sprint" "" "POST"

/-- `deleteSprint`: DELETE `/sprint/{id}` with query keys `filter`, `startAt`,
`maxResults` always present.  The caller's options are not mutated. -/
def deleteSprint (base : String) (opts : JObj) : Descriptor × JObj :=
  ({ uri := buildAgileURL base ("/sprint/" ++ jsToString (getProp opts "sprintId")),
     method := "DELETE",
     json := true,
     followAllRedirects := true,
     suppliedOptions := opts,
     qs := some [("filter", getProp opts "filter"),
                 ("startAt", getProp opts "startAt"),
                 ("maxResults", getProp opts "maxResults")] }, opts)

/-- `getSprintIssues`: GET `/sprint/{id}/issue` with the six query keys always
present.  The caller's options are not mutated. -/
def getSprintIssues (base : String) (opts : JObj) : Descriptor × JObj :=
  ({ uri := buildAgileURL base ("/sprint/" ++ jsToString (getProp opts "sprintId") ++ "/issue"),
     method := "GET",
     json := true,
     followAllRedirects := true,
     suppliedOptions := opts,
     qs := some [("startAt", getProp opts "startAt"),
                 ("maxResults", getProp opts "maxResults"),
                 ("jql", getProp opts "jql"),
                 ("validateQuery", getProp opts "validateQuery"),
                 ("fields", getProp opts "fields"),
                 ("expand", getProp opts "expand")] }, opts)

/-- `moveSprintIssues`: POST `/sprint/{id}/issue`.  Reads `sprintId` from the
options, `delete`s it from them, and uses the mutated options object directly
as the body.  The second component is the post-call state of the caller's
options object. -/
def moveSprintIssues (base : String) (opts : JObj) : Descriptor × JObj :=
  let sprintId := getProp opts "sprintId"
  let mutated := delProp opts "sprintId"
  ({ uri := buildAgileURL base ("/sprint/" ++ jsToString sprintId ++ "/issue"),
     method := "POST",
     followAllRedirects := true,
     suppliedOptions := mutated,
     json := true,
     body := some (.obj mutated) }, mutated)

/-- `swapSprint`: POST `/sprint/{id}/swap`, identifier extracted from the
parsed payload and deleted from it before the payload becomes the body. -/
def swapSprint (base : String) (opts : JObj) : Option (Descriptor × JObj) :=
  updateLikeSprint base opts "swapped" "/swap" "POST"

/-- One of the eight public operations of the sprint client. -/
inductive Op where
  | create
  | get
  | update
  | partlyUpdate
  | del
  | getIssues
  | moveIssues
  | swap

/-- Dispatcher: builds the descriptor (and post-call options state) of any of
the eight operations; `none` when the JavaScript would raise while building. -/
def buildDescriptor (op : Op) (base : String) (opts : JObj) :
    Option (Descriptor × JObj) :=
  match op with
  | .create => some (createSprint base opts)
  | .get => some (getSprint base opts)
  | .update => updateSprint base opts
  | .partlyUpdate => partiallyUpdateSprint base opts
  | .del => some (deleteSprint base opts)
  | .getIssues => some (getSprintIssues base opts)
  | .moveIssues => some (moveSprintIssues base opts)
  | .swap => swapSprint base opts

/-- The fields of a descriptor's body when that body is an object; empty for
an absent or primitive body. -/
def bodyFields (d : Descriptor) : JObj :=
  match d.body with
  | some (.obj fields) => fields
  | _ => []

/-- The fields of a value when it is an object, as JavaScript property access
sees them (no own properties on primitives). -/
def asObj : JVal → JObj
  | .obj fields => fields
  | _ => []

/-- Placeholder descriptor standing for "no descriptor was produced". -/
def emptyDescriptor : Descriptor :=
  { uri := "", method := "", followAllRedirects := false, json := false,
    suppliedOptions := [] }

/-- The descriptor of a build result, `emptyDescriptor` when building raised. -/
def builtDescr (r : Option (Descriptor × JObj)) : Descriptor :=
  match r with
  | some (d, _) => d
  | none => emptyDescriptor

/-- The HTTP method the spec's operation table (section 4.1) assigns to each
operation. -/
def specMethod : Op → String
  | .create => "POST"
  | .get => "GET"
  | .update => "PUT"
  | .partlyUpdate => "POST"
  | .del => "DELETE"
  | .getIssues => "GET"
  | .moveIssues => "POST"
  | .swap => "POST"

/-- The spec's relative path template for each operation, with the identifier
text substituted for the placeholder. -/
def specPath (op : Op) (idText : String) : String :=
  match op with
  | .create => "/sprint"
  | .get => "/sprint/" ++ idText
  | .update => "/sprint/" ++ idText
  | .partlyUpdate => "/sprint/" ++ idText
  | .del => "/sprint/" ++ idText
  | .getIssues => "/sprint/" ++ (idText ++ "/issue")
  | .moveIssues => "/sprint/" ++ (idText ++ "/issue")
  | .swap => "/sprint/" ++ (idText ++ "/swap")

/-- Where each operation reads the sprint identifier from: the `sprintId`
option for the read/delete/move operations, the parsed payload's `sprintId`
field for the payload-carrying writes, nowhere for create. -/
def identSource (op : Op) (opts : JObj) : JVal :=
  match op with
  | .create => .undef
  | .get => getProp opts "sprintId"
  | .del => getProp opts "sprintId"
  | .getIssues => getProp opts "sprintId"
  | .moveIssues => getProp opts "sprintId"
  | .update => getProp (asObj (getProp opts "data")) "sprintId"
  | .partlyUpdate => getProp (asObj (getProp opts "data")) "sprintId"
  | .swap => getProp (asObj (getProp opts "data")) "sprintId"

/-- A descriptor with its method replaced. -/
def withMethod (m : String) (d : Descriptor) : Descriptor :=
  { d with method := m }

/-- A string free of the placeholder-opening brace character, i.e. holding no
unresolved `\x7bid\x7d`-style placeholder. -/
def placeholderFree (s : String) : Prop :=
  '\x7b' ∉ s.data

/-- Observable trace of one transport run, for an arbitrary outcome type `α`:
which `(descriptor, callback)` pairs the transport was handed, what the
returned deferred settles with, and which `(callback, outcome)` invocations
happen.  Callbacks are identified by opaque tokens. -/
structure TransportResult (α : Type) where
  calls : List (Descriptor × Option Nat)
  deferred : α
  callbackInvocations : List (Nat × α)

/-- Modelled from the spec: the Transport contract (`JiraClient.makeRequest`,
not under `src/`).  It performs the call described by the descriptor once;
`outcome` stands for the result the network produces.  It settles the returned
deferred with that outcome and, when a callback is supplied, invokes it once
with the same outcome. -/
def makeRequest {α : Type} (d : Descriptor) (cb : Option Nat) (outcome : α) :
    TransportResult α :=
  { calls := [(d, cb)],
    deferred := outcome,
    callbackInvocations :=
      match cb with
      | some c => [(c, outcome)]
      | none => [] }

/-- A complete operation call as the source performs it: build the options
descriptor, then `return this.jiraClient.makeRequest(options, callback)`. -/
def opCall {α : Type} (op : Op) (base : String) (opts : JObj) (cb : Option Nat)
    (outcome : α) : Option (TransportResult α) :=
  (buildDescriptor op base opts).map fun r => makeRequest r.1 cb outcome

/- ### Structural equivalence of objects and descriptors -/

/-- Two objects are structurally identical when property reads agree on every
key: the JavaScript notion of deep equality, insensitive to key order and to
object identity. -/
def ObjEquiv (o₁ o₂ : JObj) : Prop :=
  ∀ k, getProp o₁ k = getProp o₂ k

/-- Deep equality of the optional body: absent bodies match, object bodies are
compared structurally, primitive bodies by value. -/
def bodyEquiv : Option JVal → Option JVal → Prop
  | some (.obj o₁), some (.obj o₂) => ObjEquiv o₁ o₂
  | b₁, b₂ => b₁ = b₂

/-- Deep equality of two descriptors: every field agrees, with the object
fields compared structurally rather than by identity. -/
def DescEquiv (d₁ d₂ : Descriptor) : Prop :=
  d₁.uri = d₂.uri ∧ d₁.method = d₂.method ∧
  d₁.followAllRedirects = d₂.followAllRedirects ∧ d₁.json = d₂.json ∧
  ObjEquiv d₁.suppliedOptions d₂.suppliedOptions ∧ d₁.qs = d₂.qs ∧
  bodyEquiv d₁.body d₂.body

/-- Deep equality of build results: both raise, or both produce deep-equal
descriptors and deep-equal post-call options. -/
def resultEquiv : Option (Descriptor × JObj) → Option (Descriptor × JObj) → Prop
  | none, none => True
  | some (d₁, p₁), some (d₂, p₂) => DescEquiv d₁ d₂ ∧ ObjEquiv p₁ p₂
  | _, _ => False

/- ### Association-list lemmas -/

theorem getProp_delProp (o : JObj) (k k' : String) :
    getProp (delProp o k) k' = if k' = k then JVal.undef else getProp o k' := by
  induction o with
  | nil => simp [getProp, delProp]
  | cons p t ih =>
      obtain ⟨a, v⟩ := p
      by_cases h : a = k
      · subst h
        by_cases h' : k' = a
        · subst h'
          simp [getProp, delProp, ih]
        · simp [getProp, delProp, ih, h', Ne.symm h']
      · by_cases h' : a = k'
        · subst h'
          simp [getProp, delProp, ih, h, Ne.symm h]
        · simp [getProp, delProp, ih, h, h']

theorem hasProp_delProp_self (o : JObj) (k : String) :
    hasProp (delProp o k) k = false := by
  induction o with
  | nil => rfl
  | cons p t ih =>
      obtain ⟨a, v⟩ := p
      by_cases h : a = k
      · simpa [delProp, h] using ih
      · simpa [hasProp, delProp, h] using ih

theorem getProp_setProp (o : JObj) (k k' : String) (w : JVal) :
    getProp (setProp o k w) k' =
      if k' = k then (if hasProp o k then w else .undef) else getProp o k' := by
  induction o with
  | nil => simp [getProp, setProp, hasProp]
  | cons p t ih =>
      obtain ⟨a, v⟩ := p
      by_cases h : a = k
      · subst h
        by_cases h' : k' = a
        · subst h'
          simp [getProp, setProp, hasProp]
        · simp [getProp, setProp, hasProp, ih, h', Ne.symm h']
      · have hak : (a == k) = false := by simp [h]
        by_cases h' : a = k'
        · subst h'
          simp [getProp, setProp, hasProp, ih, hak, h]
        · have hak' : (a == k') = false := by simp [h']
          have hh : hasProp ((a, v) :: t) k = hasProp t k := by
            simp [hasProp, hak]
          simp [getProp, setProp, ih, hak, hak', hh]

theorem hasProp_of_getProp_obj (o : JObj) (k : String) (fields : JObj)
    (h : getProp o k = .obj fields) : hasProp o k = true := by
  induction o with
  | nil => simp [getProp] at h
  | cons p t ih =>
      obtain ⟨a, v⟩ := p
      by_cases ha : a = k
      · simp [hasProp, ha]
      · simp [getProp, ha] at h
        simpa [hasProp, ha] using ih h

theorem bodyEquiv_refl (b : Option JVal) : bodyEquiv b b := by
  match b with
  | some (.obj o) => exact fun _ => rfl
  | none => rfl
  | some .undef => rfl
  | some .null => rfl
  | some (.bool _) => rfl
  | some (.num _) => rfl
  | some (.str _) => rfl
  | some (.arr _) => rfl

theorem objEquiv_delProp {o₁ o₂ : JObj} (h : ObjEquiv o₁ o₂) (k : String) :
    ObjEquiv (delProp o₁ k) (delProp o₂ k) := fun k' => by
  simp [getProp_delProp, h k']

theorem objEquiv_setProp {o₁ o₂ : JObj} (h : ObjEquiv o₁ o₂) (k : String) (w : JVal)
    (hh : hasProp o₁ k = hasProp o₂ k) :
    ObjEquiv (setProp o₁ k w) (setProp o₂ k w) := fun k' => by
  simp [getProp_setProp, h k', hh]

theorem string_data_append (a b : String) : (a ++ b).data = a.data ++ b.data := by
  cases a
  cases b
  rfl

theorem placeholderFree_append {a b : String} (ha : placeholderFree a)
    (hb : placeholderFree b) : placeholderFree (a ++ b) := by
  simp only [placeholderFree, string_data_append, List.mem_append, not_or] at *
  exact ⟨ha, hb⟩

theorem string_append_assoc (a b c : String) : a ++ b ++ c = a ++ (b ++ c) := by
  cases a
  cases b
  cases c
  exact congrArg String.mk (List.append_assoc _ _ _)

theorem string_append_empty (s : String) : s ++ "" = s := by
  cases s
  exact congrArg String.mk (List.append_nil _)

/-- Shared url/method law of the three payload-parsing writes. -/
theorem updateLike_uri_method (base : String) (opts : JObj) (key sfx m : String) :
    ((updateLikeSprint base opts key sfx m).all fun r =>
        r.1.method == m
          && r.1.uri == buildAgileURL base
              ("/sprint/" ++ (jsToString (getProp (asObj (getProp opts "data")) "sprintId") ++ sfx))) = true
    ∧ (placeholderFree base →
        placeholderFree (jsToString (getProp (asObj (getProp opts "data")) "sprintId")) →
        placeholderFree sfx →
        placeholderFree (builtDescr (updateLikeSprint base opts key sfx m)).uri) := by
  have pfsl : placeholderFree "/sprint/" := by
    simp only [placeholderFree]
    decide
  have pfundef : placeholderFree "/sprint/undefined" := by
    simp only [placeholderFree]
    decide
  cases hd : getProp opts "data"
  case obj fields =>
      refine ⟨by simp [updateLikeSprint, parseOptions, hd, asObj, buildAgileURL,
        string_append_assoc], ?_⟩
      intro h1 h2 h3
      have h2' : placeholderFree (jsToString (getProp fields "sprintId")) := by
        simpa [asObj, hd] using h2
      simpa [updateLikeSprint, parseOptions, hd, builtDescr, buildAgileURL,
        string_append_assoc] using
        placeholderFree_append h1
          (placeholderFree_append pfsl (placeholderFree_append h2' h3))
  case undef =>
      refine ⟨by simp [updateLikeSprint, parseOptions, hd], ?_⟩
      intro _ _ _
      simp [updateLikeSprint, parseOptions, hd, builtDescr, emptyDescriptor, placeholderFree]
  case null =>
      refine ⟨by simp [updateLikeSprint, parseOptions, hd], ?_⟩
      intro _ _ _
      simp [updateLikeSprint, parseOptions, hd, builtDescr, emptyDescriptor, placeholderFree]
  all_goals
    refine ⟨?_, ?_⟩
    · have hfold : ("/sprint/" : String) ++ ("undefined" ++ sfx) = "/sprint/undefined" ++ sfx := by
        rw [← string_append_assoc]
        rfl
      simp [updateLikeSprint, parseOptions, hd, asObj, getProp, jsToString, buildAgileURL, hfold]
    · intro h1 _ h3
      simpa [updateLikeSprint, parseOptions, hd, builtDescr, buildAgileURL] using
        placeholderFree_append h1 (placeholderFree_append pfundef h3)

/-- Shared body law of the three payload-parsing writes: the body mapping has
no `sprintId` key, and every other key keeps the payload's value. -/
theorem updateLike_body (base : String) (opts : JObj) (key sfx m k : String) :
    hasProp (bodyFields (builtDescr (updateLikeSprint base opts key sfx m))) "sprintId" = false
    ∧ getProp (bodyFields (builtDescr (updateLikeSprint base opts key sfx m))) k
        = if k = "sprintId" then .undef else getProp (asObj (getProp opts "data")) k := by
  cases hd : getProp opts "data"
  case obj fields =>
      refine ⟨?_, ?_⟩
      · simpa [updateLikeSprint, parseOptions, hd, builtDescr, bodyFields] using
          hasProp_delProp_self fields "sprintId"
      · simpa [updateLikeSprint, parseOptions, hd, builtDescr, bodyFields, asObj] using
          getProp_delProp fields "sprintId" k
  all_goals
    simp [updateLikeSprint, parseOptions, hd, builtDescr, bodyFields, emptyDescriptor, asObj,
      getProp, hasProp]

/- ### Claim theorems -/

/-- C1: For the write operations that carry the sprint identifier inside the
payload (updateSprint, partiallyUpdateSprint, moveSprintIssues, swapSprint),
for every options object the descriptor's body mapping contains no `sprintId`
key, and every other key of the payload is present in the body with its value
unchanged.  The payload is the options' `data` object for the parsing writes
and the options object itself for moveSprintIssues. -/
theorem write_ops_strip_identifier_from_body (base : String) (opts : JObj) (k : String) :
    (hasProp (bodyFields (builtDescr (updateSprint base opts))) "sprintId" = false
      ∧ getProp (bodyFields (builtDescr (updateSprint base opts))) k
          = if k = "sprintId" then .undef else getProp (asObj (getProp opts "data")) k)
    ∧ (hasProp (bodyFields (builtDescr (partiallyUpdateSprint base opts))) "sprintId" = false
      ∧ getProp (bodyFields (builtDescr (partiallyUpdateSprint base opts))) k
          = if k = "sprintId" then .undef else getProp (asObj (getProp opts "data")) k)
    ∧ (hasProp (bodyFields (moveSprintIssues base opts).1) "sprintId" = false
      ∧ getProp (bodyFields (moveSprintIssues base opts).1) k
          = if k = "sprintId" then .undef else getProp opts k)
    ∧ (hasProp (bodyFields (builtDescr (swapSprint base opts))) "sprintId" = false
      ∧ getProp (bodyFields (builtDescr (swapSprint base opts))) k
          = if k = "sprintId" then .undef else getProp (asObj (getProp opts "data")) k) := by
  refine ⟨updateLike_body base opts "sprint" "" "PUT" k,
          updateLike_body base opts "sprint" "" "POST" k,
          ⟨?_, ?_⟩,
          updateLike_body base opts "swapped" "/swap" "POST" k⟩
  · simpa [moveSprintIssues, bodyFields] using hasProp_delProp_self opts "sprintId"
  · simpa [moveSprintIssues, bodyFields] using getProp_delProp opts "sprintId" k

/-- C3: For the read/delete operations (getSprint, deleteSprint,
getSprintIssues), for every options object the descriptor's query mapping
contains exactly the operation's declared key set, with keys structurally
present even when their values are unset, and the descriptor carries no body
(the body mapping is empty). -/
theorem read_delete_ops_query_shape (base : String) (opts : JObj) :
    ((getSprint base opts).1.qs.getD []).map Prod.fst = ["filter", "startAt", "maxResults"]
    ∧ (getSprint base opts).1.body = none
    ∧ ((deleteSprint base opts).1.qs.getD []).map Prod.fst = ["filter", "startAt", "maxResults"]
    ∧ (deleteSprint base opts).1.body = none
    ∧ ((getSprintIssues base opts).1.qs.getD []).map Prod.fst
        = ["startAt", "maxResults", "jql", "validateQuery", "fields", "expand"]
    ∧ (getSprintIssues base opts).1.body = none :=
  ⟨rfl, rfl, rfl, rfl, rfl, rfl⟩

/-- C6: Every operation forwards its optional completion callback unchanged,
together with the single descriptor it built, in exactly one call to the
transport, and returns the transport's result; the deferred settles with the
transport's outcome and the callback, when present, is invoked with that same
outcome. -/
theorem ops_single_transport_dispatch {α : Type} (op : Op) (base : String) (opts : JObj)
    (cb : Option Nat) (outcome : α) :
    (opCall op base opts cb outcome).map TransportResult.calls
      = (buildDescriptor op base opts).map (fun r => [(r.1, cb)])
    ∧ (opCall op base opts cb outcome).map TransportResult.deferred
      = (buildDescriptor op base opts).map (fun _ => outcome)
    ∧ (opCall op base opts cb outcome).map TransportResult.callbackInvocations
      = (buildDescriptor op base opts).map (fun _ =>
          match cb with
          | some c => [(c, outcome)]
          | none => []) := by
  cases hb : buildDescriptor op base opts <;>
    simp [opCall, hb, makeRequest]

/-- C7: moveSprintIssues mutates the caller's own options object: afterwards
the `sprintId` key is deleted from it while every other key keeps its original
value, and that same deleted object is used directly as the descriptor's body
(and as its suppliedOptions). -/
theorem moveSprintIssues_mutates_caller_options (base : String) (opts : JObj) (k : String) :
    hasProp (moveSprintIssues base opts).2 "sprintId" = false
    ∧ getProp (moveSprintIssues base opts).2 k
        = (if k = "sprintId" then .undef else getProp opts k)
    ∧ (moveSprintIssues base opts).1.body = some (.obj (moveSprintIssues base opts).2)
    ∧ (moveSprintIssues base opts).1.suppliedOptions = (moveSprintIssues base opts).2 :=
  ⟨hasProp_delProp_self opts "sprintId", getProp_delProp opts "sprintId" k, rfl, rfl⟩

/-- C8: getSprint, deleteSprint and getSprintIssues leave the caller's options
object completely unchanged: the post-call options state is the input object
itself. -/
theorem read_ops_leave_options_untouched (base : String) (opts : JObj) :
    (getSprint base opts).2 = opts ∧ (deleteSprint base opts).2 = opts
    ∧ (getSprintIssues base opts).2 = opts :=
  ⟨rfl, rfl, rfl⟩

/-- C9: For every options object, updateSprint and partiallyUpdateSprint
produce identical results in every field except the method: each one's result
is the other's with the method overridden (PUT for updateSprint, POST for
partiallyUpdateSprint). -/
theorem update_and_partly_update_differ_in_method_only (base : String) (opts : JObj) :
    partiallyUpdateSprint base opts
        = (updateSprint base opts).map (fun r => (withMethod "POST" r.1, r.2))
    ∧ updateSprint base opts
        = (partiallyUpdateSprint base opts).map (fun r => (withMethod "PUT" r.1, r.2)) := by
  cases hd : getProp opts "data" <;>
    simp [updateSprint, partiallyUpdateSprint, updateLikeSprint, parseOptions, hd, withMethod]

/-- C2: For every operation and options object, the descriptor's url is the
URL Resolver applied to that operation's relative path template with the
identifier substituted verbatim (via JavaScript string coercion), the method
is the one the spec's operation table assigns, and, provided neither the
configured base nor the identifier text holds a brace, the url contains no
unresolved placeholder. -/
theorem ops_follow_operation_table (op : Op) (base : String) (opts : JObj) :
    ((buildDescriptor op base opts).all fun r =>
        r.1.method == specMethod op
          && r.1.uri == buildAgileURL base
              (specPath op (jsToString (identSource op opts)))) = true
    ∧ (placeholderFree base → placeholderFree (jsToString (identSource op opts)) →
        placeholderFree (builtDescr (buildDescriptor op base opts)).uri) := by
  have pfsl : placeholderFree "/sprint/" := by
    simp only [placeholderFree]
    decide
  have pfsp : placeholderFree "/sprint" := by
    simp only [placeholderFree]
    decide
  have pfiss : placeholderFree "/issue" := by
    simp only [placeholderFree]
    decide
  have pfswap : placeholderFree "/swap" := by
    simp only [placeholderFree]
    decide
  have pfe : placeholderFree "" := by
    simp only [placeholderFree]
    decide
  cases op
  case create =>
      refine ⟨by simp [buildDescriptor, createSprint, specMethod, specPath, buildAgileURL], ?_⟩
      intro h1 _
      simpa [buildDescriptor, createSprint, builtDescr, buildAgileURL] using
        placeholderFree_append h1 pfsp
  case get =>
      refine ⟨by simp [buildDescriptor, getSprint, specMethod, specPath, identSource,
        buildAgileURL], ?_⟩
      intro h1 h2
      simpa [buildDescriptor, getSprint, builtDescr, buildAgileURL, identSource] using
        placeholderFree_append h1 (placeholderFree_append pfsl h2)
  case del =>
      refine ⟨by simp [buildDescriptor, deleteSprint, specMethod, specPath, identSource,
        buildAgileURL], ?_⟩
      intro h1 h2
      simpa [buildDescriptor, deleteSprint, builtDescr, buildAgileURL, identSource] using
        placeholderFree_append h1 (placeholderFree_append pfsl h2)
  case getIssues =>
      refine ⟨by simp [buildDescriptor, getSprintIssues, specMethod, specPath, identSource,
        buildAgileURL, string_append_assoc], ?_⟩
      intro h1 h2
      simpa [buildDescriptor, getSprintIssues, builtDescr, buildAgileURL, identSource,
        string_append_assoc] using
        placeholderFree_append h1
          (placeholderFree_append pfsl (placeholderFree_append h2 pfiss))
  case moveIssues =>
      refine ⟨by simp [buildDescriptor, moveSprintIssues, specMethod, specPath, identSource,
        buildAgileURL, string_append_assoc], ?_⟩
      intro h1 h2
      simpa [buildDescriptor, moveSprintIssues, builtDescr, buildAgileURL, identSource,
        string_append_assoc] using
        placeholderFree_append h1
          (placeholderFree_append pfsl (placeholderFree_append h2 pfiss))
  case update =>
      have h := updateLike_uri_method base opts "sprint" "" "PUT"
      refine ⟨?_, fun h1 h2 => h.2 h1 (by simpa [identSource] using h2) pfe⟩
      simpa [buildDescriptor, updateSprint, specMethod, specPath, identSource,
        string_append_empty] using h.1
  case partlyUpdate =>
      have h := updateLike_uri_method base opts "sprint" "" "POST"
      refine ⟨?_, fun h1 h2 => h.2 h1 (by simpa [identSource] using h2) pfe⟩
      simpa [buildDescriptor, partiallyUpdateSprint, specMethod, specPath, identSource,
        string_append_empty] using h.1
  case swap =>
      have h := updateLike_uri_method base opts "swapped" "/swap" "POST"
      refine ⟨?_, fun h1 h2 => h.2 h1 (by simpa [identSource] using h2) pfswap⟩
      simpa [buildDescriptor, swapSprint, specMethod, specPath, identSource] using h.1

/-- C2 witness: the operation table law checked for getSprintIssues at a
concrete base configuration and options object. -/
theorem ops_follow_operation_table_checked :
    ((buildDescriptor .getIssues "https://jira.example.com/rest/agile/1.0"
        [("sprintId", JVal.num 42)]).all fun r =>
        r.1.method == specMethod .getIssues
          && r.1.uri == buildAgileURL "https://jira.example.com/rest/agile/1.0"
              (specPath .getIssues (jsToString (identSource .getIssues
                [("sprintId", JVal.num 42)])))) = true
    ∧ placeholderFree
        (builtDescr (buildDescriptor .getIssues "https://jira.example.com/rest/agile/1.0"
          [("sprintId", JVal.num 42)])).uri :=
  ⟨(ops_follow_operation_table .getIssues "https://jira.example.com/rest/agile/1.0"
      [("sprintId", JVal.num 42)]).1,
   (ops_follow_operation_table .getIssues "https://jira.example.com/rest/agile/1.0"
      [("sprintId", JVal.num 42)]).2
     (by simp only [placeholderFree]; decide)
     (by
       simp only [identSource, placeholderFree]
       simp [getProp, jsToString]
       decide)⟩

/-- C4 counterexample: with no sprintId supplied, moveSprintIssues and
updateSprint do not signal a construction-time failure: each still produces a
descriptor, whose URL carries the literal text "undefined" where the
identifier should stand. -/
theorem missing_identifier_descriptor_still_built :
    (moveSprintIssues "https://jira.example.com/rest/agile/1.0"
        [("issues", JVal.arr [JVal.str "ISS-1", JVal.str "ISS-2"])]).1.uri
      = "https://jira.example.com/rest/agile/1.0/sprint/undefined/issue"
    ∧ (updateSprint "https://jira.example.com/rest/agile/1.0"
        [("data", JVal.obj [("name", JVal.str "Sprint 5")])]).map (fun r => r.1.uri)
      = some "https://jira.example.com/rest/agile/1.0/sprint/undefined" := by
  constructor
  · simp [moveSprintIssues, getProp, jsToString, buildAgileURL]
  · simp [updateSprint, updateLikeSprint, parseOptions, getProp, delProp, jsToString,
      buildAgileURL]

/-- C4 amended: when the supplied options (or parsed payload) do not contain
the identifier, the operation does not fail at construction time; it produces
a descriptor whose URL has the literal text "undefined" substituted in the
identifier position, so absence surfaces only later at the transport level. -/
theorem missing_identifier_builds_undefined_url (base : String) (opts : JObj) :
    (getProp opts "sprintId" = .undef →
      (moveSprintIssues base opts).1.uri = buildAgileURL base "/sprint/undefined/issue")
    ∧ (∀ payload, getProp opts "data" = .obj payload →
        getProp payload "sprintId" = .undef →
        (updateSprint base opts).map (fun r => r.1.uri)
          = some (buildAgileURL base "/sprint/undefined")) := by
  refine ⟨fun h => ?_, fun payload hd hs => ?_⟩
  · simp [moveSprintIssues, h, jsToString, buildAgileURL]
  · simp [updateSprint, updateLikeSprint, parseOptions, hd, hs, jsToString, buildAgileURL]

/-- C4 amended witness: checked at concrete options lacking the identifier. -/
theorem missing_identifier_builds_undefined_url_checked :
    (moveSprintIssues "https://jira.example.com/rest/agile/1.0"
        [("issues", JVal.arr [JVal.str "ISS-1"])]).1.uri
      = buildAgileURL "https://jira.example.com/rest/agile/1.0" "/sprint/undefined/issue"
    ∧ (updateSprint "https://jira.example.com/rest/agile/1.0"
        [("data", JVal.obj [("name", JVal.str "Sprint 5")])]).map (fun r => r.1.uri)
      = some (buildAgileURL "https://jira.example.com/rest/agile/1.0" "/sprint/undefined") :=
  ⟨(missing_identifier_builds_undefined_url "https://jira.example.com/rest/agile/1.0"
      [("issues", JVal.arr [JVal.str "ISS-1"])]).1 (by simp [getProp]),
   (missing_identifier_builds_undefined_url "https://jira.example.com/rest/agile/1.0"
      [("data", JVal.obj [("name", JVal.str "Sprint 5")])]).2
     [("name", JVal.str "Sprint 5")] (by simp [getProp]) (by simp [getProp])⟩

/-- Shared structural-congruence law of the three payload-parsing writes. -/
theorem updateLike_respects_structure (base : String) (o₁ o₂ : JObj) (key sfx m : String)
    (h : ObjEquiv o₁ o₂) :
    resultEquiv (updateLikeSprint base o₁ key sfx m) (updateLikeSprint base o₂ key sfx m) := by
  have hd2 : getProp o₂ "data" = getProp o₁ "data" := (h "data").symm
  cases hd : getProp o₁ "data"
  case undef =>
      rw [hd] at hd2
      simp [updateLikeSprint, parseOptions, hd, hd2, resultEquiv]
  case null =>
      rw [hd] at hd2
      simp [updateLikeSprint, parseOptions, hd, hd2, resultEquiv]
  case obj fields =>
      rw [hd] at hd2
      have hsupp : ObjEquiv (setProp o₁ "data" (.obj (delProp fields "sprintId")))
          (setProp o₂ "data" (.obj (delProp fields "sprintId"))) :=
        objEquiv_setProp h "data" _ (by
          rw [hasProp_of_getProp_obj o₁ "data" fields hd,
            hasProp_of_getProp_obj o₂ "data" fields hd2])
      dsimp only [updateLikeSprint, parseOptions]
      rw [hd, hd2]
      exact ⟨⟨rfl, rfl, rfl, rfl, hsupp, rfl, bodyEquiv_refl _⟩, hsupp⟩
  all_goals
    rw [hd] at hd2
    dsimp only [updateLikeSprint, parseOptions]
    rw [hd, hd2]
    exact ⟨⟨rfl, rfl, rfl, rfl, h, rfl, bodyEquiv_refl _⟩, h⟩

/-- C5: Building a descriptor is a deterministic function of the options'
structure: for every operation, two structurally identical (but possibly
distinct, differently ordered) options objects yield deep-equal results —
equal in every descriptor field, with the object-valued parts compared
structurally. -/
theorem descriptor_build_respects_structure (op : Op) (base : String) (o₁ o₂ : JObj)
    (h : ObjEquiv o₁ o₂) :
    resultEquiv (buildDescriptor op base o₁) (buildDescriptor op base o₂) := by
  cases op
  case create =>
      refine ⟨⟨rfl, rfl, rfl, rfl, h, rfl, ?_⟩, h⟩
      show bodyEquiv (some (getProp o₁ "data")) (some (getProp o₂ "data"))
      rw [h "data"]
      exact bodyEquiv_refl _
  case get =>
      refine ⟨⟨?_, rfl, rfl, rfl, h, ?_, rfl⟩, h⟩
      · show buildAgileURL base ("/sprint/" ++ jsToString (getProp o₁ "sprintId"))
          = buildAgileURL base ("/sprint/" ++ jsToString (getProp o₂ "sprintId"))
        rw [h "sprintId"]
      · show some [("filter", getProp o₁ "filter"), ("startAt", getProp o₁ "startAt"),
            ("maxResults", getProp o₁ "maxResults")] = _
        rw [h "filter", h "startAt", h "maxResults"]
  case del =>
      refine ⟨⟨?_, rfl, rfl, rfl, h, ?_, rfl⟩, h⟩
      · show buildAgileURL base ("/sprint/" ++ jsToString (getProp o₁ "sprintId"))
          = buildAgileURL base ("/sprint/" ++ jsToString (getProp o₂ "sprintId"))
        rw [h "sprintId"]
      · show some [("filter", getProp o₁ "filter"), ("startAt", getProp o₁ "startAt"),
            ("maxResults", getProp o₁ "maxResults")] = _
        rw [h "filter", h "startAt", h "maxResults"]
  case getIssues =>
      refine ⟨⟨?_, rfl, rfl, rfl, h, ?_, rfl⟩, h⟩
      · show buildAgileURL base ("/sprint/" ++ jsToString (getProp o₁ "sprintId") ++ "/issue")
          = buildAgileURL base ("/sprint/" ++ jsToString (getProp o₂ "sprintId") ++ "/issue")
        rw [h "sprintId"]
      · show some [("startAt", getProp o₁ "startAt"), ("maxResults", getProp o₁ "maxResults"),
            ("jql", getProp o₁ "jql"), ("validateQuery", getProp o₁ "validateQuery"),
            ("fields", getProp o₁ "fields"), ("expand", getProp o₁ "expand")] = _
        rw [h "startAt", h "maxResults", h "jql", h "validateQuery", h "fields", h "expand"]
  case moveIssues =>
      refine ⟨⟨?_, rfl, rfl, rfl, objEquiv_delProp h "sprintId", rfl,
          objEquiv_delProp h "sprintId"⟩, objEquiv_delProp h "sprintId"⟩
      show buildAgileURL base ("/sprint/" ++ jsToString (getProp o₁ "sprintId") ++ "/issue")
          = buildAgileURL base ("/sprint/" ++ jsToString (getProp o₂ "sprintId") ++ "/issue")
      rw [h "sprintId"]
  case update => exact updateLike_respects_structure base o₁ o₂ "sprint" "" "PUT" h
  case partlyUpdate => exact updateLike_respects_structure base o₁ o₂ "sprint" "" "POST" h
  case swap => exact updateLike_respects_structure base o₁ o₂ "swapped" "/swap" "POST" h

/-- C5 witness: the getSprint build applied to two distinct, differently
ordered but structurally identical options objects. -/
theorem descriptor_build_respects_structure_checked :
    resultEquiv
      (buildDescriptor .get "https://jira.example.com/rest/agile/1.0"
        [("sprintId", JVal.num 42), ("maxResults", JVal.num 50)])
      (buildDescriptor .get "https://jira.example.com/rest/agile/1.0"
        [("maxResults", JVal.num 50), ("sprintId", JVal.num 42)]) :=
  descriptor_build_respects_structure .get "https://jira.example.com/rest/agile/1.0"
    [("sprintId", JVal.num 42), ("maxResults", JVal.num 50)]
    [("maxResults", JVal.num 50), ("sprintId", JVal.num 42)]
    (by
      intro k
      by_cases h1 : "sprintId" = k
      · subst h1
        rfl
      · by_cases h2 : "maxResults" = k
        · subst h2
          rfl
        · simp [getProp, h1, h2])

/-- C10: Every descriptor produced by any of the eight operations carries
`json` set to true and `followAllRedirects` set to true, regardless of the
options supplied. -/
theorem descriptors_always_json_redirect_flags (op : Op) (base : String) (opts : JObj) :
    ((buildDescriptor op base opts).all fun r => r.1.json && r.1.followAllRedirects) = true := by
  cases op <;> cases hd : getProp opts "data" <;>
    simp [buildDescriptor, createSprint, getSprint, updateSprint, partiallyUpdateSprint,
      deleteSprint, getSprintIssues, moveSprintIssues, swapSprint, updateLikeSprint,
      parseOptions, hd]

end JiraConnector
